import Mathlib

/-!
Verification of the contract-analysis pipeline in `contract_analyzer.py`.

The Python module is shallowly embedded: its pure string processing
(whitespace normalization, sentence segmentation, keyword and risk-phrase
matching, risk-level aggregation, heatmap assembly) is translated into
executable Lean functions, while its interactions with external ML models
(the summarizer pipeline, the sentence-transformer embedder, PCA) and other
effects (PDF page extraction, `np.random.rand`, Python `set` enumeration
order) are supplied by an explicit environment `Env` whose fields record
the outcome of each external call (`Except String _` models a Python call
that either returns or raises).  Rational numbers stand in for Python
floats; exact constants `3/10`, `6/10` model the literals `0.3`, `0.6`.
-/

namespace ContractAnalyzer

/-- Characters treated as whitespace by Python's `\s` (ASCII fragment;
the repository's inputs are normalized ASCII-ish text). -/
def isWs (c : Char) : Bool :=
  c == ' ' || c == '\t' || c == '\n' || c == '\r' || c == '\x0b' || c == '\x0c'

/-- One step of `re.sub(r'\s+', ' ', text)`: every maximal whitespace run
collapses to a single space. -/
def collapseRuns : List Char → List Char
  | [] => []
  | [c] => [if isWs c then ' ' else c]
  | c :: c' :: cs =>
    if isWs c && isWs c' then collapseRuns (c' :: cs)
    else (if isWs c then ' ' else c) :: collapseRuns (c' :: cs)

/-- Python `str.strip()` on the collapsed text. -/
def stripEnds (l : List Char) : List Char :=
  ((l.dropWhile isWs).reverse.dropWhile isWs).reverse

/-- Line 72 of `contract_analyzer.py`:
`contract_text = re.sub(r'\s+', ' ', contract_text).strip()`. -/
def normalizeWs (s : String) : String :=
  String.mk (stripEnds (collapseRuns s.data))

/-- Sentence-terminal punctuation of the segmentation regex `[.!?]`. -/
def isTermChar (c : Char) : Bool :=
  c == '.' || c == '!' || c == '?'

/-- Whether the (reversed) accumulator ends in a sentence terminator,
i.e. the lookbehind `(?<=[.!?])` holds at the current position. -/
def headTerm : List Char → Bool
  | [] => false
  | t :: _ => isTermChar t

/-- Worker for `re.split(r'(?<=[.!?])\s+', text)`: scan the text keeping an
accumulator of the current segment (reversed); a whitespace character whose
predecessor is a terminator ends the segment, and the rest of the
whitespace run is consumed (greedy `\s+`) via the `skipping` flag, which is
set just after a split and cleared by the first non-whitespace character. -/
def splitAux : List Char → List Char → Bool → List (List Char)
  | [], acc, _ => [acc.reverse]
  | c :: cs, acc, skipping =>
    if skipping && isWs c then splitAux cs acc true
    else if isWs c && headTerm acc then acc.reverse :: splitAux cs [] true
    else splitAux cs (c :: acc) false

/-- Line 91: `sentences = re.split(r'(?<=[.!?])\s+', contract_text)`. -/
def splitSents (s : String) : List String :=
  (splitAux s.data [] false).map String.mk

/-- Lines 91-92: split into sentences and drop segments of length `≤ 20`
(`[s for s in sentences if len(s) > 20]`). -/
def segmentSentences (ct : String) : List String :=
  (splitSents ct).filter (fun s => 20 < s.length)

/-- Does `p` occur at the start of `s`? (helper for substring search). -/
def leadMatch : List Char → List Char → Bool
  | [], _ => true
  | _ :: _, [] => false
  | a :: as, b :: bs => a == b && leadMatch as bs

/-- Python's `p in s` substring containment on char lists. -/
def occursL (p : List Char) : List Char → Bool
  | [] => leadMatch p []
  | c :: cs => leadMatch p (c :: cs) || occursL p cs

/-- Python's `p in s` on strings. -/
def occursIn (p s : String) : Bool :=
  occursL p.data s.data

/-- Python's `str.lower()` (ASCII fragment, via `Char.toLower`). -/
def lowerStr (s : String) : String :=
  String.mk (s.data.map Char.toLower)

/-! ## Fixed configuration (lines 94-102 and 140-143) -/

/-- Lines 95-102: the fixed clause-category table, in source order. -/
def clauseList : List (String × List String) :=
  [("Payment Terms", ["payment", "fee", "charges", "cost"]),
   ("Termination", ["terminate", "termination", "cancel"]),
   ("Confidentiality", ["confidential", "privacy"]),
   ("Data Usage", ["data", "third party", "information"]),
   ("Auto Renewal", ["renewal", "automatically"]),
   ("Liability", ["penalty", "liability", "damages"])]

/-- The six fixed clause-category names, in source order. -/
def clauseNames : List String := clauseList.map Prod.fst

/-- Lines 140-143: the fixed risk-phrase list. -/
def risk_phrases : List String :=
  ["without notice", "sole discretion", "non-refundable",
   "automatically renew", "no liability", "indemnify", "unilateral"]

/-! ## Data model of the returned dictionaries -/

/-- One entry of the `risks` list (lines 172-176). -/
structure RiskFinding where
  type : String
  category : String
  description : String
deriving DecidableEq, Repr

/-- Payload of one heatmap dictionary, a tagged variant over the three
dataset kinds produced by `generate_heatmap_data`. -/
inductive HeatmapData where
  | surface (x y : List (List Nat)) (z : List (List ℚ))
      (clause_names risk_levels : List String)
  | scatter3d (x y z : List ℚ) (colors texts : List String)
  | mesh3d (x y z : List ℚ) (clause_names : List String)
deriving DecidableEq, Repr

/-- One heatmap dictionary `{'type': ..., 'title': ..., 'data': ...}`. -/
structure Heatmap where
  type : String
  title : String
  data : HeatmapData
deriving DecidableEq, Repr

/-- The success dictionary returned at lines 185-194 (sans the constant
`'status': 'success'` key, which carries no information). -/
structure AnalysisResult where
  summary : String
  risk_level : String
  risk_emoji : String
  risks : List RiskFinding
  risky_sentences : List String
  detected_clauses : List (String × Nat)
  heatmap_data : List Heatmap
deriving DecidableEq, Repr

/-- The value crossing the `analyze_contract` boundary: either the success
dictionary or an `{'error': msg}` dictionary.  The type has no third
constructor for an uncaught exception because lines 65/196-200 wrap the
entire body in `try/except`. -/
inductive AnalyzeResult where
  | success (r : AnalysisResult)
  | errorResult (msg : String)
deriving DecidableEq, Repr

/-- The user-facing insufficient-text message of lines 75-77. -/
def insufficientMsg : String :=
  "Could not extract sufficient text from PDF. Please ensure the PDF contains readable text."

/-! ## The environment of external effects

Every call into an ML model, the PDF library, `np.random`, or a Python
`set` is an external effect; `Env` records the outcome of each such call
for one run.  `Except String α` models a call that either returns an `α`
or raises an exception carrying message text. -/

/-- Outcomes of the external calls made during one `analyze_contract` run. -/
structure Env where
  /-- Outcome of `load_models()` (line 67; its internal failures re-raise). -/
  loadModels : Except String Unit
  /-- Per-page outcomes of `pdfplumber` text extraction (lines 47-50):
  `none` models a page whose `extract_text()` is falsy. -/
  pdfPages : Except String (List (Option String))
  /-- Outcome of `summarizer(...)[0]["summary_text"]` (lines 82-88), as a
  function of the (truncated) input text. -/
  summarize : String → Except String String
  /-- `embedder and SENTENCE_TRANSFORMERS_AVAILABLE` (line 109). -/
  embAvail : Bool
  /-- Outcome of the first `embedder.encode(sentences)` (line 111). -/
  encodeSents : Except String (List (List ℚ))
  /-- Outcome of processing category `i` in the loop of lines 112-117:
  keyword-phrase encoding, cosine similarity, and selection of the
  sentences scoring above `0.45` (the scores are model outputs, so the
  selected sublist is supplied by the environment). -/
  catEmbed : Nat → Except String (List String)
  /-- Outcome of the re-encode `embedder.encode(sentences)` at line 127. -/
  reEncode : Except String (List (List ℚ))
  /-- Entries of `np.random.rand(...)` placeholder matrices. -/
  randEntry : Nat → Nat → ℚ
  /-- Enumeration order of `list(set(...))` (line 145-148); Python set
  iteration order over strings is interpreter-dependent. -/
  setEnum : List String → List String
  /-- Outcome of `PCA(n_components=3).fit_transform(sentence_embeddings)`
  (lines 239-245), as a function of the input matrix. -/
  pcaSent : List (List ℚ) → Except String (List (ℚ × ℚ × ℚ))
  /-- Outcome of `embedder.encode(clause_names)` followed by
  `PCA(3).fit_transform` (lines 269-271), given the clause names. -/
  clausePca : List String → Except String (List (ℚ × ℚ × ℚ))

/-- Lines 43-53, `extract_text_from_pdf`: concatenate each truthy page
text followed by a space; any `pdfplumber` exception is re-raised with a
`Failed to extract text from PDF:` prefix. -/
def extract_text_from_pdf (env : Env) : Except String String :=
  match env.pdfPages with
  | .error e => .error ("Failed to extract text from PDF: " ++ e)
  | .ok pages =>
    .ok (pages.foldl (fun text p =>
      match p with
      | some t => text ++ t ++ " "
      | none => text) "")

/-! ## Clause detection (lines 104-137) -/

/-- Python dict assignment `d[k] = v` on an insertion-ordered
association list: replace in place if the key exists, else append. -/
def insertAssoc (d : List (String × α)) (k : String) (v : α) :
    List (String × α) :=
  match d with
  | [] => [(k, v)]
  | (k', v') :: rest =>
    if k' == k then (k', v) :: rest else (k', v') :: insertAssoc rest k v

/-- Python `d.get(k)` on an association list. -/
def lookupA (d : List (String × α)) (k : String) : Option α :=
  match d with
  | [] => none
  | (k', v) :: rest => if k' == k then some v else lookupA rest k

/-- One category's keyword fallback (lines 122 and 133):
`[s for s in sentences if any(kw in s.lower() for kw in keywords)]`. -/
def kwMatchSentences (keywords : List String) (sentences : List String) :
    List String :=
  sentences.filter (fun s => keywords.any (fun kw => occursIn kw (lowerStr s)))

/-- One iteration of the keyword-fallback loop (lines 121-124 and
132-135): `if matched: detected_clauses[clause] = matched`. -/
def kwStep (sentences : List String) (d : List (String × List String))
    (ck : String × List String) : List (String × List String) :=
  if (kwMatchSentences ck.2 sentences).isEmpty then d
  else insertAssoc d ck.1 (kwMatchSentences ck.2 sentences)

/-- The keyword-fallback loop over all categories (lines 121-124 and
132-135), run against a starting dictionary `d0` (the partial dictionary
already built when the loop at line 121 runs after an exception). -/
def kwFallbackAll (sentences : List String) (d0 : List (String × List String)) :
    List (String × List String) :=
  clauseList.foldl (kwStep sentences) d0

/-- The embedding-based category loop (lines 112-117) over an indexed
category list: each category's outcome comes from `catEmbed`; an exception
stops the loop, returning the partial dictionary and a failure flag. -/
def embedLoop (ce : Nat → Except String (List String)) :
    List (Nat × String × List String) → List (String × List String) →
    List (String × List String) × Bool
  | [], d => (d, false)
  | (i, ck) :: rest, d =>
    match ce i with
    | .error _ => (d, true)
    | .ok matched =>
      embedLoop ce rest (if matched.isEmpty then d else insertAssoc d ck.1 matched)

/-- An `n × k` matrix of `np.random.rand` outcomes. -/
def randMat (r : Nat → Nat → ℚ) (n k : Nat) : List (List ℚ) :=
  (List.range n).map (fun i => (List.range k).map (fun j => r i j))

/-- The `except` branch of lines 118-129: redo keyword matching for every
category over the partial dictionary, then re-encode the sentences for the
heatmap stage, falling back to a random `len(sentences) × 384` matrix. -/
def fallbackAfterError (env : Env) (sentences : List String)
    (d0 : List (String × List String)) :
    List (String × List String) × Option (List (List ℚ)) :=
  let d := kwFallbackAll sentences d0
  let emb := match env.reEncode with
    | .ok m => m
    | .error _ => randMat env.randEntry sentences.length 384
  (d, some emb)

/-- Lines 104-137, clause detection: the embedding path with its
exception handler, or the pure keyword path with dummy random embeddings
when the embedder is unavailable.  Returns the detected-clauses dictionary
and the `sentence_embeddings` value. -/
def detectStage (env : Env) (sentences : List String) :
    List (String × List String) × Option (List (List ℚ)) :=
  if env.embAvail then
    match env.encodeSents with
    | .ok m0 =>
      match embedLoop env.catEmbed clauseList.enum [] with
      | (d, false) => (d, some m0)
      | (d, true) => fallbackAfterError env sentences d
    | .error _ => fallbackAfterError env sentences []
  else
    (kwFallbackAll sentences [],
     some (randMat env.randEntry sentences.length 384))

/-! ## Risk detection and aggregation (lines 139-176) -/

/-- Does a sentence contain some risk phrase (in lowercase form)? -/
def isRisky (s : String) : Bool :=
  risk_phrases.any (fun p => occursIn p (lowerStr s))

/-- The generator of lines 145-148 before `set` is applied: yields `s`
once per risk phrase it contains (duplicates included), in input order. -/
def riskyGen (sentences : List String) : List String :=
  sentences.flatMap (fun s =>
    (risk_phrases.filter (fun p => occursIn p (lowerStr s))).map (fun _ => s))

/-- Lines 150-160: the risk-level label from the risky-sentence count. -/
def riskLevelOf (n : Nat) : String :=
  if n ≥ 5 then "HIGH RISK" else if n ≥ 2 then "MEDIUM RISK" else "LOW RISK"

/-- Lines 150-160: the emoji accompanying the risk level. -/
def riskEmojiOf (n : Nat) : String :=
  if n ≥ 5 then "🔴" else if n ≥ 2 then "🟠" else "🟢"

/-- Lines 163-176: build one presented risk finding from its source
sentence (`risk_type` by top-down precedence, category by `renew`). -/
def mkRisk (s : String) : RiskFinding :=
  let low := lowerStr s
  { type :=
      if occursIn "automatically renew" low || occursIn "without notice" low then
        "Critical Risk"
      else if occursIn "no liability" low || occursIn "indemnify" low then
        "High Risk"
      else "Caution"
    category := if occursIn "renew" low then "Auto-Renewal" else "Liability"
    description := s }

/-! ## Heatmap synthesis (`generate_heatmap_data`, lines 202-356) -/

/-- The part of the environment `generate_heatmap_data` consumes: the
embedder-availability flag and the two PCA-related external calls. -/
structure HeatEnv where
  embAvail : Bool
  pcaSent : List (List ℚ) → Except String (List (ℚ × ℚ × ℚ))
  clausePca : List String → Except String (List (ℚ × ℚ × ℚ))

/-- The heatmap-stage slice of a full environment. -/
def heatEnvOf (env : Env) : HeatEnv :=
  ⟨env.embAvail, env.pcaSent, env.clausePca⟩

/-- Line 212: `X` rows of `np.meshgrid(np.arange(K), np.arange(3))`. -/
def surfaceX (K : Nat) : List (List Nat) :=
  [List.range K, List.range K, List.range K]

/-- Line 212: `Y` rows of `np.meshgrid(np.arange(K), np.arange(3))`. -/
def surfaceY (K : Nat) : List (List Nat) :=
  [List.replicate K 0, List.replicate K 1, List.replicate K 2]

/-- Lines 213-219: the intensity grid; the loop writes, for column `i`
with match count `m`, row 0 `m*0.3`, row 1 `m*0.6`, row 2 `m`. -/
def surfaceZ (counts : List Nat) : List (List ℚ) :=
  [counts.map (fun m : Nat => (m : ℚ) * (3 / 10)),
   counts.map (fun m : Nat => (m : ℚ) * (6 / 10)),
   counts.map (fun m : Nat => (m : ℚ))]

/-- Lines 211-231: the Surface heatmap, a pure function of the clause
names and their match counts. -/
def surfaceOf (clause_names : List String) (counts : List Nat) : Heatmap :=
  { type := "surface"
    title := "3D Contract Risk Surface"
    data := .surface (surfaceX clause_names.length) (surfaceY clause_names.length)
      (surfaceZ counts) clause_names ["Low", "Medium", "High"] }

/-- Line 248: truncate a sentence label to 50 characters plus ellipsis. -/
def trunc50 (s : String) : String :=
  if 50 < s.length then s.take 50 ++ "..." else s

/-- Lines 238-245: zero-pad the embedding matrix rows to at least 3
columns before the projection (`np.pad` with `max(0, 3 - shape[1])`). -/
def padTo3 (m : List (List ℚ)) : List (List ℚ) :=
  if 3 ≤ (m.headD []).length then m
  else m.map (fun row => row ++ List.replicate (3 - (m.headD []).length) (0 : ℚ))

/-- Lines 247-260: the scatter heatmap built from projected points, with
per-sentence colors (`red` for risky) and 50-character labels, truncated
to the number of projected points. -/
def scatterFrom (pts : List (ℚ × ℚ × ℚ)) (sentences risky : List String) :
    Heatmap :=
  { type := "scatter3d"
    title := "3D PCA Risk Cloud (Semantic Clause Space)"
    data := .scatter3d (pts.map (·.1)) (pts.map (·.2.1)) (pts.map (·.2.2))
      ((sentences.map (fun s => if risky.contains s then "red" else "green")).take
        pts.length)
      ((sentences.map trunc50).take pts.length) }

/-- Lines 234-263: the PCA scatter heatmap, or `none` when the guard
fails or the projection raises. -/
def mkScatterOpt (he : HeatEnv) (emb : Option (List (List ℚ)))
    (sentences risky : List String) : Option Heatmap :=
  match emb with
  | none => none
  | some m =>
    if 0 < m.length then
      match he.pcaSent (padTo3 m) with
      | .ok pts => some (scatterFrom pts sentences risky)
      | .error _ => none
    else none

/-- Lines 288-293: the deterministic lattice positions
`(i % 3, (i // 3) % 3, i // 9)` used when the embedder is unavailable. -/
def latticePts (K : Nat) : List (ℚ × ℚ × ℚ) :=
  (List.range K).map (fun i =>
    (((i % 3 : Nat) : ℚ), ((i / 3 % 3 : Nat) : ℚ), ((i / 9 : Nat) : ℚ)))

/-- Lines 266-305: the mesh heatmap; the embedder path may raise (giving
`none`), while the lattice fallback is total. -/
def mkMeshOpt (he : HeatEnv) (clause_names : List String) : Option Heatmap :=
  if he.embAvail then
    match he.clausePca clause_names with
    | .ok pts =>
      some { type := "mesh3d"
             title := "3D Clause Semantic Mesh Topology"
             data := .mesh3d (pts.map (·.1)) (pts.map (·.2.1))
               (pts.map (·.2.2)) clause_names }
    | .error _ => none
  else
    let pts := latticePts clause_names.length
    some { type := "mesh3d"
           title := "3D Clause Semantic Mesh Topology"
           data := .mesh3d (pts.map (·.1)) (pts.map (·.2.1))
             (pts.map (·.2.2)) clause_names }

/-- Lines 317-328: the static scatter placeholder. -/
def scatterPlaceholder : Heatmap :=
  { type := "scatter3d"
    title := "3D PCA Risk Cloud (Semantic Clause Space)"
    data := .scatter3d [0, 1, 2, 3, 4] [0, 1, 2, 3, 4] [0, 1, 2, 3, 4]
      ["red", "green", "red", "green", "red"]
      ["Risk clause 1", "Safe clause 1", "Risk clause 2", "Safe clause 2",
       "Risk clause 3"] }

/-- Line 343: pad or truncate the clause-name labels to exactly 6. -/
def meshPHNames (cn : List String) : List String :=
  if 6 ≤ cn.length then cn.take 6
  else cn ++ List.replicate (6 - cn.length) "Additional Clause"

/-- Lines 336-346: the static mesh placeholder. -/
def meshPlaceholder (cn : List String) : Heatmap :=
  { type := "mesh3d"
    title := "3D Clause Semantic Mesh Topology"
    data := .mesh3d [0, 1, 2, 3, 4, 5] [0, 1, 2, 3, 4, 5] [0, 1, 2, 3, 4, 5]
      (meshPHNames cn) }

/-- Lines 205-207: the clause names used by the heatmaps — the detected
categories in detection order, or the full fixed list if none. -/
def surfaceNames (d : List (String × List String)) : List String :=
  if d.isEmpty then clauseNames else d.map Prod.fst

/-- Line 216: per-category match counts
`len(detected_clauses.get(clause, []))` in `surfaceNames` order. -/
def surfaceCounts (d : List (String × List String)) : List Nat :=
  (surfaceNames d).map (fun c => ((lookupA d c).getD []).length)

/-- Lines 202-352, `generate_heatmap_data`: surface heatmap, then the
scatter and mesh heatmaps with per-dataset placeholder substitution
(lines 307-349), truncated to three entries.  The surface computation and
placeholder assembly are pure arithmetic on small values and have no
failure mode, so the outer `except` of lines 354-356 is unreachable and is
not given a spurious failure oracle here. -/
def generate_heatmap_data (he : HeatEnv) (detected : List (String × List String))
    (emb : Option (List (List ℚ))) (sentences risky : List String) :
    List Heatmap :=
  [surfaceOf (surfaceNames detected) (surfaceCounts detected),
   (mkScatterOpt he emb sentences risky).getD scatterPlaceholder,
   (mkMeshOpt he (surfaceNames detected)).getD
     (meshPlaceholder (surfaceNames detected))].take 3

/-! ## The full pipeline (`analyze_contract`, lines 55-200) -/

/-- Lines 91-194 after the summarizer: segmentation, clause detection,
risk detection and aggregation, finding construction, heatmap synthesis,
and assembly of the success dictionary.  All of this is exception-free in
the source: every fallible external call inside it is wrapped in a local
`try`/`except`. -/
def assembleResult (env : Env) (ct : String) (summary_result : String) :
    AnalysisResult :=
  let sentences := segmentSentences ct
  let dc := detectStage env sentences
  let risky_sentences := env.setEnum (riskyGen sentences)
  let embsFinal := match dc.2 with
    | none => randMat env.randEntry sentences.length 384
    | some m => m
  { summary := summary_result
    risk_level := riskLevelOf risky_sentences.length
    risk_emoji := riskEmojiOf risky_sentences.length
    risks := (risky_sentences.take 10).map mkRisk
    risky_sentences := risky_sentences
    detected_clauses := dc.1.map (fun p => (p.1, p.2.length))
    heatmap_data := generate_heatmap_data (heatEnvOf env) dc.1 (some embsFinal)
      sentences risky_sentences }

/-- Lines 74-194, the body after normalization: the insufficient-text
gate (lines 74-77, `if not contract_text or len(contract_text) < 100`),
then the summarizer call on the first 3000 characters (lines 81-88), then
the exception-free remainder. -/
def afterExtract (env : Env) (ct : String) : Except String AnalyzeResult :=
  if ct = "" ∨ ct.length < 100 then .ok (.errorResult insufficientMsg)
  else
    match env.summarize (ct.take 3000) with
    | .error e => .error e
    | .ok s => .ok (.success (assembleResult env ct s))

/-- The body of the `try` block of lines 65-194: any `.error e` is an
exception propagating to the handler at line 196. -/
def analyzeBody (env : Env) : Except String AnalyzeResult :=
  match env.loadModels with
  | .error e => .error e
  | .ok _ =>
    match extract_text_from_pdf env with
    | .error e => .error e
    | .ok raw => afterExtract env (normalizeWs raw)

/-- Lines 55-200, `analyze_contract`: the whole body runs inside `try`;
the handler at lines 196-200 converts any exception into the
`Analysis failed:` error dictionary. -/
def analyze_contract (env : Env) : AnalyzeResult :=
  match analyzeBody env with
  | .ok r => r
  | .error e => .errorResult ("Analysis failed: " ++ e)

/-- Boolean discriminator for the boundary result. -/
def isSuccessB : AnalyzeResult → Bool
  | .success _ => true
  | .errorResult _ => false

/-- Well-formedness of a detected-clauses dictionary: every key is one of
the six fixed categories and every value is a non-empty match list. -/
def goodEntries (d : List (String × List String)) : Prop :=
  ∀ p ∈ d, p.1 ∈ clauseNames ∧ p.2 ≠ []

/-! ## Concrete inputs used by witnesses and counterexamples -/

/-- A small contract text: one auto-renewal (risky) sentence and one
payment sentence; normalizes to 154 characters. -/
def rawW : String :=
  "This subscription shall automatically renew for successive one year terms unless cancelled. The customer shall make payment within thirty days of invoice."

/-- First sentence of `rawW` (contains `automatically renew`). -/
def sRenewW : String :=
  "This subscription shall automatically renew for successive one year terms unless cancelled."

/-- Second sentence of `rawW` (contains the keyword `payment`). -/
def sPayW : String :=
  "The customer shall make payment within thirty days of invoice."

/-- A run in which every external call succeeds: one extracted page,
a summarizer result, an available embedder whose category-0 similarity
matches the payment sentence, and failing PCA calls (so both optional
heatmaps fall back to their placeholders). -/
def envW : Env :=
  { loadModels := .ok ()
    pdfPages := .ok [some rawW]
    summarize := fun _ => .ok "A summary."
    embAvail := true
    encodeSents := .ok [[0, 0, 0], [0, 0, 0]]
    catEmbed := fun i => if i == 0 then .ok [sPayW] else .ok []
    reEncode := .error "re-encode unavailable"
    randEntry := fun _ _ => 0
    setEnum := fun l => l
    pcaSent := fun _ => .error "pca failed"
    clausePca := fun _ => .error "clause pca failed" }

/-- The success dictionary `analyze_contract` produces on `envW`. -/
def rW : AnalysisResult :=
  assembleResult envW (normalizeWs (rawW ++ " ")) "A summary."

/-- A run whose model loading raises. -/
def envBad : Env :=
  { loadModels := .error "model loading crashed"
    pdfPages := .ok [some rawW]
    summarize := fun _ => .ok "A summary."
    embAvail := false
    encodeSents := .error ""
    catEmbed := fun _ => .error ""
    reEncode := .error ""
    randEntry := fun _ _ => 0
    setEnum := fun l => l
    pcaSent := fun _ => .error ""
    clausePca := fun _ => .error "" }

/-- A run identical to `envW` except that the summarizer raises. -/
def envC3 : Env :=
  { loadModels := .ok ()
    pdfPages := .ok [some rawW]
    summarize := fun _ => .error "summarizer crashed"
    embAvail := true
    encodeSents := .ok [[0, 0, 0], [0, 0, 0]]
    catEmbed := fun i => if i == 0 then .ok [sPayW] else .ok []
    reEncode := .error "re-encode unavailable"
    randEntry := fun _ _ => 0
    setEnum := fun l => l
    pcaSent := fun _ => .error "pca failed"
    clausePca := fun _ => .error "clause pca failed" }

/-- A sentence containing the Payment Terms keyword `payment`. -/
def sPayC4 : String := "All payment obligations continue after expiry."

/-- A sentence containing no clause keyword at all. -/
def sOtherC4 : String := "The quick brown fox jumps over the lazy dog here."

/-- A run in which embedding-based detection matches `sOtherC4` for
category 0 (Payment Terms) and then raises while processing category 1. -/
def envC4 : Env :=
  { loadModels := .ok ()
    pdfPages := .ok []
    summarize := fun _ => .ok ""
    embAvail := true
    encodeSents := .ok [[0, 0, 0], [0, 0, 0]]
    catEmbed := fun i => if i == 0 then .ok [sOtherC4] else .error "similarity failed"
    reEncode := .error "re-encode unavailable"
    randEntry := fun _ _ => 0
    setEnum := fun l => l
    pcaSent := fun _ => .error ""
    clausePca := fun _ => .error "" }

/-- A run whose PDF yields fewer than 100 characters of text. -/
def envShort : Env :=
  { loadModels := .ok ()
    pdfPages := .ok [some "Too short."]
    summarize := fun _ => .ok "A summary."
    embAvail := false
    encodeSents := .error ""
    catEmbed := fun _ => .error ""
    reEncode := .error ""
    randEntry := fun _ _ => 0
    setEnum := fun l => l
    pcaSent := fun _ => .error ""
    clausePca := fun _ => .error "" }

/-- A heatmap-stage environment with no embedder and failing PCA. -/
def heW : HeatEnv :=
  ⟨false, fun _ => .error "pca failed", fun _ => .error "clause pca failed"⟩

/-- Text whose first segment has exactly 20 characters. -/
def tC9 : String :=
  "Pay the fee in time. We will not accept any liability for indirect damages."

/-! ## General lemmas -/

theorem strData_append (s t : String) : (s ++ t).data = s.data ++ t.data := by
  cases s; cases t; rfl

/-- The handler's `Analysis failed:` message is never the
insufficient-text message (their first characters differ). -/
theorem failedNeInsufficient (e : String) :
    ("Analysis failed: " ++ e) ≠ insufficientMsg := by
  intro h
  have h2 : ("Analysis failed: ".data ++ e.data).head? = insufficientMsg.data.head? := by
    rw [← strData_append, h]
  simp [insufficientMsg] at h2

/-- Inversion: a success dictionary can only come out of `assembleResult`
applied to the normalized text and the summarizer's output. -/
theorem analyze_success_inv (env : Env) (r : AnalysisResult)
    (h : analyze_contract env = .success r) :
    ∃ ct s, env.summarize (ct.take 3000) = .ok s ∧ r = assembleResult env ct s := by
  cases hb : analyzeBody env with
  | error e =>
    unfold analyze_contract at h
    rw [hb] at h
    exact absurd h (by simp)
  | ok ar =>
    unfold analyze_contract at h
    rw [hb] at h
    change ar = .success r at h
    subst h
    unfold analyzeBody at hb
    split at hb
    · exact absurd hb (by simp)
    · split at hb
      · exact absurd hb (by simp)
      · unfold afterExtract at hb
        split at hb
        · simp only [Except.ok.injEq] at hb
          exact absurd hb (by simp)
        · split at hb
          · exact absurd hb (by simp)
          next s hs =>
            simp only [Except.ok.injEq, AnalyzeResult.success.injEq] at hb
            exact ⟨_, s, hs, hb.symm⟩

theorem lookupA_insertAssoc_self (d : List (String × α)) (k : String) (v : α) :
    lookupA (insertAssoc d k v) k = some v := by
  induction d with
  | nil => simp [insertAssoc, lookupA]
  | cons p rest ih =>
    obtain ⟨k0, v0⟩ := p
    unfold insertAssoc
    split
    · next h => simp [lookupA, h]
    · next h =>
      unfold lookupA
      rw [if_neg h]
      exact ih

theorem lookupA_insertAssoc_ne (d : List (String × α)) (k k' : String) (v : α)
    (h : k ≠ k') : lookupA (insertAssoc d k v) k' = lookupA d k' := by
  induction d with
  | nil =>
    unfold insertAssoc lookupA
    rw [if_neg (by simpa using h)]
    rfl
  | cons p rest ih =>
    obtain ⟨k0, v0⟩ := p
    unfold insertAssoc
    split
    · next hk0 =>
      have hk0' : k0 = k := by simpa using hk0
      have : (k0 == k') = false := by
        subst hk0'
        simpa using h
      unfold lookupA
      rw [if_neg (by simp [this]), if_neg (by simp [this])]
    · next hk0 =>
      unfold lookupA
      by_cases hb : (k0 == k') = true
      · rw [if_pos hb, if_pos hb]
      · rw [if_neg hb, if_neg hb]
        exact ih

/-- A `kwStep` fold leaves keys it never touches alone. -/
theorem lookupA_kwFold_not_mem (sentences : List String) :
    ∀ (L : List (String × List String)) (d : List (String × List String))
      (c : String), c ∉ L.map Prod.fst →
      lookupA (L.foldl (kwStep sentences) d) c = lookupA d c := by
  intro L
  induction L with
  | nil => intro d c _; rfl
  | cons hd rest ih =>
    intro d c hc
    simp only [List.map_cons, List.mem_cons, not_or] at hc
    simp only [List.foldl_cons]
    rw [ih _ c hc.2]
    unfold kwStep
    split
    · rfl
    · exact lookupA_insertAssoc_ne _ _ _ _ (fun h => hc.1 h.symm)

/-- A `kwStep` fold over distinct keys: each listed category ends up
mapped to its keyword matches when those are non-empty, and keeps its
previous binding otherwise. -/
theorem lookupA_kwFold_mem (sentences : List String) :
    ∀ (L : List (String × List String)) (d : List (String × List String))
      (c : String) (kws : List String),
      (L.map Prod.fst).Nodup → (c, kws) ∈ L →
      lookupA (L.foldl (kwStep sentences) d) c =
        (if (kwMatchSentences kws sentences).isEmpty then lookupA d c
         else some (kwMatchSentences kws sentences)) := by
  intro L
  induction L with
  | nil => intro d c kws _ hmem; exact absurd hmem (List.not_mem_nil _)
  | cons hd rest ih =>
    intro d c kws hnd hmem
    simp only [List.map_cons, List.nodup_cons] at hnd
    simp only [List.foldl_cons]
    rcases List.mem_cons.mp hmem with heq | htl
    · subst heq
      rw [lookupA_kwFold_not_mem sentences rest _ c hnd.1]
      by_cases hm : (kwMatchSentences kws sentences).isEmpty = true
      · simp only [kwStep]
        rw [if_pos hm, if_pos hm]
      · simp only [kwStep]
        rw [if_neg hm, if_neg hm]
        exact lookupA_insertAssoc_self _ _ _
    · have hc_in : c ∈ rest.map Prod.fst :=
        List.mem_map.mpr ⟨(c, kws), htl, rfl⟩
      have hne : hd.1 ≠ c := fun h => hnd.1 (h ▸ hc_in)
      rw [ih _ c kws hnd.2 htl]
      by_cases hm : (kwMatchSentences kws sentences).isEmpty = true
      · rw [if_pos hm, if_pos hm]
        unfold kwStep
        split
        · rfl
        · exact lookupA_insertAssoc_ne _ _ _ _ hne
      · rw [if_neg hm, if_neg hm]

theorem goodEntries_insertAssoc (k : String) (v : List String)
    (hk : k ∈ clauseNames) (hv : v ≠ []) :
    ∀ d : List (String × List String),
      goodEntries d → goodEntries (insertAssoc d k v) := by
  intro d
  induction d with
  | nil =>
    intro _ p hp
    simp only [insertAssoc, List.mem_singleton] at hp
    subst hp
    exact ⟨hk, hv⟩
  | cons q rest ih =>
    intro hd
    obtain ⟨k0, v0⟩ := q
    have hd0 : goodEntries rest := fun x hx => hd x (List.mem_cons_of_mem _ hx)
    have hk0 : k0 ∈ clauseNames := (hd (k0, v0) (List.mem_cons_self _ _)).1
    have hv0 : v0 ≠ [] := (hd (k0, v0) (List.mem_cons_self _ _)).2
    unfold insertAssoc
    split
    · intro p hp
      rcases List.mem_cons.mp hp with h | h
      · subst h
        exact ⟨hk0, hv⟩
      · exact hd0 p h
    · intro p hp
      rcases List.mem_cons.mp hp with h | h
      · subst h
        exact ⟨hk0, hv0⟩
      · exact ih hd0 p h

theorem goodEntries_embedLoop (ce : Nat → Except String (List String)) :
    ∀ (L : List (Nat × String × List String)) (d : List (String × List String)),
      (∀ x ∈ L, x.2.1 ∈ clauseNames) → goodEntries d →
      goodEntries (embedLoop ce L d).1 := by
  intro L
  induction L with
  | nil => intro d _ hd; exact hd
  | cons hdp rest ih =>
    intro d hL hd
    obtain ⟨i, ck⟩ := hdp
    simp only [embedLoop]
    cases ce i with
    | error e => exact hd
    | ok matched =>
      refine ih _ (fun x hx => hL x (List.mem_cons_of_mem _ hx)) ?_
      split
      · exact hd
      · next hne =>
        exact goodEntries_insertAssoc ck.1 matched
          (hL (i, ck) (List.mem_cons_self _ _)) (by simpa using hne) d hd

theorem goodEntries_kwFold (sentences : List String) :
    ∀ (L : List (String × List String)) (d : List (String × List String)),
      (∀ x ∈ L, x.1 ∈ clauseNames) → goodEntries d →
      goodEntries (L.foldl (kwStep sentences) d) := by
  intro L
  induction L with
  | nil => intro d _ hd; exact hd
  | cons hdp rest ih =>
    intro d hL hd
    simp only [List.foldl_cons]
    refine ih _ (fun x hx => hL x (List.mem_cons_of_mem _ hx)) ?_
    unfold kwStep
    split
    · exact hd
    · next hne =>
      exact goodEntries_insertAssoc hdp.1 _
        (hL hdp (List.mem_cons_self _ _)) (by simpa using hne) d hd

/-- Both output dictionaries of clause detection are well-formed. -/
theorem goodEntries_detectStage (env : Env) (sentences : List String) :
    goodEntries (detectStage env sentences).1 := by
  have hclauses : ∀ x ∈ clauseList, x.1 ∈ clauseNames := by decide
  have hempty : goodEntries ([] : List (String × List String)) :=
    fun p hp => absurd hp (List.not_mem_nil _)
  have hkw : ∀ d0, goodEntries d0 → goodEntries (kwFallbackAll sentences d0) :=
    fun d0 h => goodEntries_kwFold sentences clauseList d0 hclauses h
  unfold detectStage
  split
  · cases env.encodeSents with
    | error e => exact hkw [] hempty
    | ok m0 =>
      have hgood : goodEntries (embedLoop env.catEmbed clauseList.enum []).1 :=
        goodEntries_embedLoop env.catEmbed clauseList.enum [] (by decide) hempty
      rcases hE : embedLoop env.catEmbed clauseList.enum [] with ⟨d, b⟩
      rw [hE] at hgood
      cases b
      · exact hgood
      · exact hkw d hgood
  · exact hkw [] hempty

/-- Every heatmap the scatter generator can produce is tagged `scatter3d`. -/
theorem mkScatterOpt_type (he : HeatEnv) (emb : Option (List (List ℚ)))
    (sentences risky : List String) (hm : Heatmap)
    (h : mkScatterOpt he emb sentences risky = some hm) :
    hm.type = "scatter3d" := by
  unfold mkScatterOpt at h
  split at h
  · exact absurd h (by simp)
  · split at h
    · split at h
      · simp only [Option.some.injEq] at h
        rw [← h]
        rfl
      · exact absurd h (by simp)
    · exact absurd h (by simp)

/-- Every heatmap the mesh generator can produce is tagged `mesh3d`. -/
theorem mkMeshOpt_type (he : HeatEnv) (clause_names : List String)
    (hm : Heatmap) (h : mkMeshOpt he clause_names = some hm) :
    hm.type = "mesh3d" := by
  unfold mkMeshOpt at h
  split at h
  · split at h
    · simp only [Option.some.injEq] at h
      rw [← h]
    · exact absurd h (by simp)
  · simp only [Option.some.injEq] at h
    rw [← h]

/-- The three heatmap types, in order, for every call of the
synthesizer. -/
theorem generate_heatmap_types (he : HeatEnv)
    (detected : List (String × List String)) (emb : Option (List (List ℚ)))
    (sentences risky : List String) :
    (generate_heatmap_data he detected emb sentences risky).map Heatmap.type
      = ["surface", "scatter3d", "mesh3d"] := by
  unfold generate_heatmap_data
  simp only [List.take, List.map_cons, List.map_nil]
  refine congrArg₂ _ rfl (congrArg₂ _ ?_ (congrArg₂ _ ?_ rfl))
  · cases hs : mkScatterOpt he emb sentences risky with
    | none => rfl
    | some hm => exact mkScatterOpt_type he emb sentences risky hm hs
  · cases hms : mkMeshOpt he (surfaceNames detected) with
    | none => rfl
    | some hm => exact mkMeshOpt_type he _ hm hms

/-! ## The claims -/

/-- C1: for every successful analysis (one that does not return an
error-tagged result), the `heatmap_data` field of the result returned by
`analyze_contract` contains exactly 3 datasets whose `type` fields are the
literal strings `surface`, `scatter3d`, `mesh3d` in that order, regardless
of embedding-provider availability and regardless of failures in any
individual dataset generator. -/
theorem C1_heatmap_types (env : Env) (r : AnalysisResult)
    (h : analyze_contract env = .success r) :
    r.heatmap_data.length = 3 ∧
    r.heatmap_data.map Heatmap.type = ["surface", "scatter3d", "mesh3d"] := by
  obtain ⟨ct, s, _, rfl⟩ := analyze_success_inv env r h
  have hmap : (assembleResult env ct s).heatmap_data.map Heatmap.type
      = ["surface", "scatter3d", "mesh3d"] := generate_heatmap_types _ _ _ _ _
  refine ⟨?_, hmap⟩
  have := congrArg List.length hmap
  simpa using this

set_option maxRecDepth 20000 in
/-- Witness for C1: on the concrete run `envW` the analysis succeeds and
its heatmap types are as claimed. -/
theorem C1_witness :
    rW.heatmap_data.length = 3 ∧
    rW.heatmap_data.map Heatmap.type = ["surface", "scatter3d", "mesh3d"] :=
  C1_heatmap_types envW rW (by rfl)

/-- C2: for every input, `analyze_contract` never raises across its
boundary: the outcome is either a full success dictionary or an
error-tagged dictionary, and every exception of the body is caught and
converted into the `Analysis failed:` error form. -/
theorem C2_no_throw (env : Env) :
    ((∃ r, analyze_contract env = .success r) ∨
     (∃ m, analyze_contract env = .errorResult m)) ∧
    (∀ e, analyzeBody env = .error e →
      analyze_contract env = .errorResult ("Analysis failed: " ++ e)) := by
  constructor
  · cases h : analyze_contract env with
    | success r => exact .inl ⟨r, rfl⟩
    | errorResult m => exact .inr ⟨m, rfl⟩
  · intro e he
    unfold analyze_contract
    rw [he]

set_option maxRecDepth 20000 in
/-- Witness for C2: a run whose model loading raises is converted into the
error-tagged result. -/
theorem C2_witness :
    analyze_contract envBad
      = .errorResult ("Analysis failed: " ++ "model loading crashed") :=
  (C2_no_throw envBad).2 "model loading crashed" (by rfl)

set_option maxRecDepth 20000 in
/-- Counterexample to C3: on `envC3` the summarizer raises while text
extraction yields ample text, and the analysis returns the error-tagged
dictionary, not a structurally complete result without a summary. -/
theorem C3_counterexample :
    envC3.summarize ((normalizeWs (rawW ++ " ")).take 3000)
      = .error "summarizer crashed" ∧
    analyze_contract envC3
      = .errorResult ("Analysis failed: " ++ "summarizer crashed") ∧
    isSuccessB (analyze_contract envC3) = false :=
  ⟨rfl, by rfl, by rfl⟩

/-- C3 as amended: if the summarization stage raises, the whole analysis
aborts; `analyze_contract` returns the `Analysis failed:` error-tagged
dictionary and no other field is produced. -/
theorem C3_summarizer_failure_aborts (env : Env) (raw m : String)
    (hL : env.loadModels = .ok ())
    (hx : extract_text_from_pdf env = .ok raw)
    (hlen : 100 ≤ (normalizeWs raw).length)
    (hs : env.summarize ((normalizeWs raw).take 3000) = .error m) :
    analyze_contract env = .errorResult ("Analysis failed: " ++ m) := by
  have hguard : ¬(normalizeWs raw = "" ∨ (normalizeWs raw).length < 100) := by
    rintro (h | h)
    · rw [h] at hlen
      exact absurd hlen (by decide)
    · omega
  have hb : analyzeBody env = .error m := by
    simp only [analyzeBody, hL, hx]
    simp only [afterExtract]
    rw [if_neg hguard, hs]
  unfold analyze_contract
  rw [hb]

set_option maxRecDepth 20000 in
/-- Witness for the amended C3, at the concrete run `envC3`. -/
theorem C3_witness :
    analyze_contract envC3
      = .errorResult ("Analysis failed: " ++ "summarizer crashed") :=
  C3_summarizer_failure_aborts envC3 (rawW ++ " ") "summarizer crashed"
    rfl (by rfl) (by decide) rfl

/-- Counterexample to C4: on `envC4`, embedding-based detection matched
`sOtherC4` for category 0 (Payment Terms) before the failure at category
1, yet the final dictionary maps Payment Terms to the keyword match
`sPayC4` — the embedding-based match of an unaffected category was
discarded, so the fallback is not applied per-category independently. -/
theorem C4_counterexample :
    envC4.catEmbed 0 = .ok [sOtherC4] ∧
    (detectStage envC4 [sPayC4, sOtherC4]).1 = [("Payment Terms", [sPayC4])] ∧
    sPayC4 ≠ sOtherC4 :=
  ⟨rfl, by decide, by decide⟩

/-- C4 as amended: an exception anywhere in embedding-based detection
sends every category through the keyword fallback over the partial
dictionary: a category whose keywords match some sentence is (re)bound to
its keyword matches — overwriting any embedding-based match it had — and
a category with no keyword match keeps its previous binding; sentence
embeddings for the heatmap stage are still produced, as a random
`len(sentences) × 384` placeholder matrix when the re-encode also fails. -/
theorem C4_fallback_overwrites (env : Env) (sentences : List String)
    (m0 : List (List ℚ)) (d : List (String × List String))
    (ha : env.embAvail = true)
    (he : env.encodeSents = .ok m0)
    (hl : embedLoop env.catEmbed clauseList.enum [] = (d, true)) :
    (detectStage env sentences).1 = kwFallbackAll sentences d ∧
    (∀ c kws, (c, kws) ∈ clauseList →
      lookupA (kwFallbackAll sentences d) c =
        (if (kwMatchSentences kws sentences).isEmpty then lookupA d c
         else some (kwMatchSentences kws sentences))) ∧
    (∀ e, env.reEncode = .error e →
      (detectStage env sentences).2
        = some (randMat env.randEntry sentences.length 384)) ∧
    (randMat env.randEntry sentences.length 384).length = sentences.length ∧
    (∀ row ∈ randMat env.randEntry sentences.length 384, row.length = 384) := by
  have hds : detectStage env sentences = fallbackAfterError env sentences d := by
    simp only [detectStage, ha, if_true, he, hl]
  refine ⟨by rw [hds]; rfl, ?_, ?_, ?_, ?_⟩
  · intro c kws hmem
    exact lookupA_kwFold_mem sentences clauseList d c kws (by decide) hmem
  · intro e hre
    rw [hds]
    simp only [fallbackAfterError, hre]
  · simp [randMat]
  · intro row hrow
    simp only [randMat, List.mem_map] at hrow
    obtain ⟨i, _, rfl⟩ := hrow
    simp

/-- Witness for the amended C4, at the concrete failing run `envC4`. -/
theorem C4_witness :
    (detectStage envC4 [sPayC4, sOtherC4]).2
      = some (randMat envC4.randEntry 2 384) :=
  (C4_fallback_overwrites envC4 [sPayC4, sOtherC4] [[0, 0, 0], [0, 0, 0]]
    [("Payment Terms", [sOtherC4])] rfl rfl (by decide)).2.2.1
    "re-encode unavailable" rfl

/-- C5: the risk level is a pure function of the risky-sentence count
`n`: `n ≥ 5` yields `HIGH RISK`, `2 ≤ n < 5` yields `MEDIUM RISK`,
`n < 2` yields `LOW RISK`, and the label is always one of exactly these
three strings. -/
theorem C5_risk_level (env : Env) (r : AnalysisResult)
    (h : analyze_contract env = .success r) :
    r.risk_level = riskLevelOf r.risky_sentences.length ∧
    (∀ n : Nat, (5 ≤ n → riskLevelOf n = "HIGH RISK") ∧
      (2 ≤ n → n < 5 → riskLevelOf n = "MEDIUM RISK") ∧
      (n < 2 → riskLevelOf n = "LOW RISK")) ∧
    (r.risk_level = "LOW RISK" ∨ r.risk_level = "MEDIUM RISK" ∨
      r.risk_level = "HIGH RISK") := by
  obtain ⟨ct, s, _, rfl⟩ := analyze_success_inv env r h
  have key : ∀ n : Nat, riskLevelOf n = "LOW RISK" ∨
      riskLevelOf n = "MEDIUM RISK" ∨ riskLevelOf n = "HIGH RISK" := by
    intro n
    unfold riskLevelOf
    split
    · exact .inr (.inr rfl)
    · split
      · exact .inr (.inl rfl)
      · exact .inl rfl
  refine ⟨rfl, ?_, key _⟩
  intro n
  refine ⟨?_, ?_, ?_⟩
  · intro h5
    unfold riskLevelOf
    rw [if_pos h5]
  · intro h2 h5
    unfold riskLevelOf
    rw [if_neg (by omega), if_pos h2]
  · intro h2
    unfold riskLevelOf
    rw [if_neg (by omega), if_neg (by omega)]

set_option maxRecDepth 20000 in
/-- Witness for C5, at the concrete successful run `envW`. -/
theorem C5_witness :
    rW.risk_level = riskLevelOf rW.risky_sentences.length ∧
    (rW.risk_level = "LOW RISK" ∨ rW.risk_level = "MEDIUM RISK" ∨
      rW.risk_level = "HIGH RISK") :=
  ⟨(C5_risk_level envW rW (by rfl)).1, (C5_risk_level envW rW (by rfl)).2.2⟩

/-- C6: every presented risk finding gets its severity by top-down
precedence on its source sentence — `automatically renew`/`without
notice` give Critical Risk; otherwise `no liability`/`indemnify` give
High Risk; otherwise Caution — and its category is `Auto-Renewal` exactly
when the sentence contains `renew` case-insensitively, else
`Liability`. -/
theorem C6_finding_rules (env : Env) (r : AnalysisResult) (f : RiskFinding)
    (h : analyze_contract env = .success r) (hf : f ∈ r.risks) :
    ((occursIn "automatically renew" (lowerStr f.description)
        || occursIn "without notice" (lowerStr f.description)) = true →
      f.type = "Critical Risk") ∧
    ((occursIn "automatically renew" (lowerStr f.description)
        || occursIn "without notice" (lowerStr f.description)) = false →
      (occursIn "no liability" (lowerStr f.description)
        || occursIn "indemnify" (lowerStr f.description)) = true →
      f.type = "High Risk") ∧
    ((occursIn "automatically renew" (lowerStr f.description)
        || occursIn "without notice" (lowerStr f.description)) = false →
      (occursIn "no liability" (lowerStr f.description)
        || occursIn "indemnify" (lowerStr f.description)) = false →
      f.type = "Caution") ∧
    (occursIn "renew" (lowerStr f.description) = true →
      f.category = "Auto-Renewal") ∧
    (occursIn "renew" (lowerStr f.description) = false →
      f.category = "Liability") := by
  obtain ⟨ct, s, _, rfl⟩ := analyze_success_inv env r h
  have hr : (assembleResult env ct s).risks
      = ((env.setEnum (riskyGen (segmentSentences ct))).take 10).map mkRisk := rfl
  rw [hr] at hf
  obtain ⟨s0, _, rfl⟩ := List.mem_map.mp hf
  have hdesc : (mkRisk s0).description = s0 := rfl
  rw [hdesc]
  refine ⟨?_, ?_, ?_, ?_, ?_⟩
  · intro hc
    simp [mkRisk, hc]
  · intro hc hh
    simp [mkRisk, hc, hh]
  · intro hc hh
    simp [mkRisk, hc, hh]
  · intro hc
    simp [mkRisk, hc]
  · intro hc
    simp [mkRisk, hc]

set_option maxRecDepth 20000 in
/-- Witness for C6: the finding built from the auto-renewal sentence of
`envW` is Critical Risk. -/
theorem C6_witness : (mkRisk sRenewW).type = "Critical Risk" :=
  (C6_finding_rules envW rW (mkRisk sRenewW) (by rfl) (by decide)).1 (by decide)

/-- C7: the Surface dataset is a deterministic pure function of the
clause-match counts: the first heatmap depends only on the detected
dictionary (not on the environment, embeddings, sentences, or risky set);
its grid has 3 rows of width `K = |surfaceNames d|` (the detected
categories in detection order, or the fixed 6-category list if nothing
was detected); row intensities for a category with count `m` are `m*0.3`,
`m*0.6`, `m*1.0`; and with nothing detected the grid is all-zero. -/
theorem C7_surface_dataset (he : HeatEnv) (d : List (String × List String))
    (emb : Option (List (List ℚ))) (sentences risky : List String) :
    (generate_heatmap_data he d emb sentences risky).head?
      = some (surfaceOf (surfaceNames d) (surfaceCounts d)) ∧
    (surfaceZ (surfaceCounts d)).length = 3 ∧
    (∀ row ∈ surfaceZ (surfaceCounts d), row.length = (surfaceNames d).length) ∧
    (surfaceX (surfaceNames d).length).length = 3 ∧
    (∀ row ∈ surfaceX (surfaceNames d).length,
      row.length = (surfaceNames d).length) ∧
    (∀ i m, (surfaceCounts d).get? i = some m →
      ((surfaceZ (surfaceCounts d)).getD 0 []).get? i = some ((m : ℚ) * (3 / 10)) ∧
      ((surfaceZ (surfaceCounts d)).getD 1 []).get? i = some ((m : ℚ) * (6 / 10)) ∧
      ((surfaceZ (surfaceCounts d)).getD 2 []).get? i = some ((m : ℚ) * 1)) ∧
    (d = [] → surfaceZ (surfaceCounts d)
      = [List.replicate 6 (0 : ℚ), List.replicate 6 0, List.replicate 6 0]) := by
  refine ⟨rfl, rfl, ?_, rfl, ?_, ?_, ?_⟩
  · intro row hrow
    have hlen : (surfaceCounts d).length = (surfaceNames d).length :=
      List.length_map _ _
    simp only [surfaceZ, List.mem_cons, List.not_mem_nil, or_false] at hrow
    rcases hrow with rfl | rfl | rfl <;> rw [List.length_map] <;> exact hlen
  · intro row hrow
    simp only [surfaceX, List.mem_cons, List.not_mem_nil, or_false] at hrow
    rcases hrow with rfl | rfl | rfl <;> simp [List.length_range]
  · intro i m hm
    refine ⟨?_, ?_, ?_⟩
    · show ((surfaceCounts d).map (fun m : Nat => (m : ℚ) * (3 / 10))).get? i = _
      rw [List.get?_map, hm]
      rfl
    · show ((surfaceCounts d).map (fun m : Nat => (m : ℚ) * (6 / 10))).get? i = _
      rw [List.get?_map, hm]
      rfl
    · show ((surfaceCounts d).map (fun m : Nat => (m : ℚ))).get? i = _
      rw [List.get?_map, hm, mul_one]
      rfl
  · intro hd
    subst hd
    have h6 : surfaceCounts [] = List.replicate 6 0 := by decide
    rw [h6]
    simp [surfaceZ, List.map_replicate]

/-- Witness for C7: with nothing detected, the grid is the all-zero
`3 × 6` grid. -/
theorem C7_witness :
    surfaceZ (surfaceCounts []) =
      [List.replicate 6 (0 : ℚ), List.replicate 6 0, List.replicate 6 0] :=
  (C7_surface_dataset heW [] none [] []).2.2.2.2.2.2 rfl

/-- C8: a document whose normalized extracted text has 100 or more
characters passes the gate (the insufficient-text error is impossible),
while 99 or fewer characters short-circuit into the insufficient-text
error result regardless of every later stage. -/
theorem C8_length_gate (env : Env) (raw : String)
    (hL : env.loadModels = .ok ())
    (hx : extract_text_from_pdf env = .ok raw) :
    ((normalizeWs raw).length ≤ 99 →
      analyze_contract env = .errorResult insufficientMsg) ∧
    (100 ≤ (normalizeWs raw).length →
      analyze_contract env ≠ .errorResult insufficientMsg) := by
  constructor
  · intro hlen
    have hb : analyzeBody env = .ok (.errorResult insufficientMsg) := by
      simp only [analyzeBody, hL, hx, afterExtract]
      rw [if_pos (Or.inr (by omega))]
    unfold analyze_contract
    rw [hb]
  · intro hlen
    have hguard : ¬(normalizeWs raw = "" ∨ (normalizeWs raw).length < 100) := by
      rintro (h | h)
      · rw [h] at hlen
        exact absurd hlen (by decide)
      · omega
    cases hs : env.summarize ((normalizeWs raw).take 3000) with
    | error e =>
      have hb : analyzeBody env = .error e := by
        simp only [analyzeBody, hL, hx, afterExtract]
        rw [if_neg hguard, hs]
      intro hcon
      unfold analyze_contract at hcon
      rw [hb] at hcon
      simp only [AnalyzeResult.errorResult.injEq] at hcon
      exact failedNeInsufficient e hcon
    | ok s =>
      have hb : analyzeBody env
          = .ok (.success (assembleResult env (normalizeWs raw) s)) := by
        simp only [analyzeBody, hL, hx, afterExtract]
        rw [if_neg hguard, hs]
      intro hcon
      unfold analyze_contract at hcon
      rw [hb] at hcon
      exact absurd hcon (by simp)

set_option maxRecDepth 20000 in
/-- Witness for C8: a 10-character document is rejected with the
insufficient-text error; the 154-character `rawW` document is not. -/
theorem C8_witness :
    analyze_contract envShort = .errorResult insufficientMsg ∧
    analyze_contract envW ≠ .errorResult insufficientMsg :=
  ⟨(C8_length_gate envShort "Too short. " rfl (by rfl)).1 (by decide),
   (C8_length_gate envW (rawW ++ " ") rfl (by rfl)).2 (by decide)⟩

/-- Counterexample to C9: the segment `Pay the fee in time.` has exactly
20 characters, yet it is discarded by the filter `len(s) > 20` — the
claim that every segment of length 20 or more is retained is false. -/
theorem C9_counterexample :
    splitSents tC9 = ["Pay the fee in time.",
      "We will not accept any liability for indirect damages."] ∧
    ("Pay the fee in time." : String).length = 20 ∧
    segmentSentences tC9
      = ["We will not accept any liability for indirect damages."] := by
  decide

/-- C9 as amended: the segmenter splits on `.`, `!`, `?` followed by
whitespace (terminator kept with its sentence) and discards exactly the
segments of 20 or fewer characters: every segment of length 21 or more is
retained, in input order (the retained list is a sublist of the split). -/
theorem C9_segment_filter (ct : String) :
    (∀ s ∈ segmentSentences ct, 21 ≤ s.length) ∧
    List.Sublist (segmentSentences ct) (splitSents ct) ∧
    (∀ s ∈ splitSents ct, 21 ≤ s.length → s ∈ segmentSentences ct) := by
  refine ⟨?_, ?_, ?_⟩
  · intro s hs
    have h2 := (List.mem_filter.mp hs).2
    have h3 : 20 < s.length := by simpa using h2
    omega
  · exact List.filter_sublist _
  · intro s hs h21
    refine List.mem_filter.mpr ⟨hs, ?_⟩
    simp only [decide_eq_true_eq]
    omega

/-- Witness for the amended C9: the 54-character segment of `tC9` is
retained. -/
theorem C9_witness :
    "We will not accept any liability for indirect damages."
      ∈ segmentSentences tC9 :=
  (C9_segment_filter tC9).2.2
    "We will not accept any liability for indirect damages."
    (by decide) (by decide)

/-- C10: in every successful result, `detected_clauses` maps only
categories that matched at least one sentence: each key is one of the six
fixed clause categories and each count is at least 1 (zero-match
categories are absent rather than present with count 0). -/
theorem C10_detected_clauses (env : Env) (r : AnalysisResult)
    (h : analyze_contract env = .success r) :
    ∀ p ∈ r.detected_clauses, p.1 ∈ clauseNames ∧ 1 ≤ p.2 := by
  obtain ⟨ct, s, _, rfl⟩ := analyze_success_inv env r h
  intro p hp
  have hd : (assembleResult env ct s).detected_clauses
      = (detectStage env (segmentSentences ct)).1.map
          (fun q => (q.1, q.2.length)) := rfl
  rw [hd] at hp
  obtain ⟨q, hq, rfl⟩ := List.mem_map.mp hp
  have hg := goodEntries_detectStage env (segmentSentences ct) q hq
  exact ⟨hg.1, List.length_pos.mpr hg.2⟩

set_option maxRecDepth 20000 in
/-- Witness for C10: on `envW` the Payment Terms entry has count 1 and a
valid key. -/
theorem C10_witness :
    ("Payment Terms", 1).1 ∈ clauseNames ∧ 1 ≤ ("Payment Terms", 1).2 :=
  C10_detected_clauses envW rW (by rfl) ("Payment Terms", 1) (by decide)

end ContractAnalyzer
